import Mathlib

set_option maxHeartbeats 1000000

/-! Shallow embedding of the Polimec funding pallet's community-round contribution
flow (`pallets/funding/src/functions/4_contribution.rs`) and of the instantiator's
balance-ledger aggregation helpers (`pallets/funding/src/instantiator/types.rs`),
together with theorems about their behaviour.

The runtime's u128 balance type is embedded as `Nat`; saturating
arithmetic is made explicit with the u128 bound. -/

/-- The u128 maximum value, the saturation bound of the balance arithmetic. -/
def u128Max : Nat := 2 ^ 128 - 1

/-- u128 `saturating_add`. -/
def saturating_add (a b : Nat) : Nat := min (a + b) u128Max

/-- u128 `saturating_sub` (floors at zero, which is `Nat` subtraction). -/
def saturating_sub (a b : Nat) : Nat := a - b

/-! ## Nat Ledger Aggregator (`instantiator/types.rs`)

The Rust code folds the input list into a `BTreeMap` keyed by account (or by
`(account, asset_id)` for `UserToFundingAsset`), using `and_modify` with
saturating add/sub and `or_insert` for the first occurrence, then iterates the
map in ascending key order.  A `BTreeMap` is embedded as an association list
with strictly increasing keys; `btreeInsertWith` is its `entry ... and_modify
... or_insert` operation. -/

inductive MergeOperation
  | Add
  | Subtract
deriving DecidableEq

/-- The fold used by `merge_accounts`: the stored entry `e` is updated with the
incoming amount via `e.saturating_add(x)` or `e.saturating_sub(x)`. -/
def MergeOperation.apply : MergeOperation → Nat → Nat → Nat
  | .Add, e, x => saturating_add e x
  | .Subtract, e, x => saturating_sub e x

/-- `BTreeMap::entry(k).and_modify(|e| *e = op.apply(e, v)).or_insert(v)` on an
association list sorted by strictly increasing key. -/
def btreeInsertWith (op : MergeOperation) (k : Nat) (v : Nat) :
    List (Nat × Nat) → List (Nat × Nat)
  | [] => [(k, v)]
  | (k', v') :: rest =>
    if k < k' then (k, v) :: (k', v') :: rest
    else if k = k' then (k', op.apply v' v) :: rest
    else (k', v') :: btreeInsertWith op k v rest

/-- `BTreeSet::insert` on a sorted duplicate-free list (used by `accounts()`). -/
def btreeSetInsert (a : Nat) : List Nat → List Nat
  | [] => [a]
  | b :: rest =>
    if a < b then a :: b :: rest
    else if a = b then b :: rest
    else b :: btreeSetInsert a rest

structure UserToPLMCBalance where
  account : Nat
  plmc_amount : Nat
deriving DecidableEq, Repr

/-- `impl Accounts for Vec<UserToPLMCBalance<T>>`: collect all accounts into a
`BTreeSet` and return them (sorted, deduplicated). -/
def UserToPLMCBalance.accounts (l : List UserToPLMCBalance) : List Nat :=
  l.foldl (fun s e => btreeSetInsert e.account s) []

/-- The `BTreeMap` built by `merge_accounts` before it is turned back into a list. -/
def UserToPLMCBalance.mergeMap (op : MergeOperation) (l : List UserToPLMCBalance) :
    List (Nat × Nat) :=
  l.foldl (fun m e => btreeInsertWith op e.account e.plmc_amount m) []

/-- `impl AccountMerge for Vec<UserToPLMCBalance<T>>::merge_accounts`. -/
def UserToPLMCBalance.merge_accounts (l : List UserToPLMCBalance) (op : MergeOperation) :
    List UserToPLMCBalance :=
  (UserToPLMCBalance.mergeMap op l).map fun kv => ⟨kv.1, kv.2⟩

/-- `subtract_accounts`: filter the other list to accounts present in `self`,
extend `self` with the result, merge with `Subtract`. -/
def UserToPLMCBalance.subtract_accounts (self other_list : List UserToPLMCBalance) :
    List UserToPLMCBalance :=
  let current_accounts := UserToPLMCBalance.accounts self
  let filtered_list := other_list.filter fun x => current_accounts.contains x.account
  UserToPLMCBalance.merge_accounts (self ++ filtered_list) MergeOperation.Subtract

/-- `sum_accounts`: append the other list to `self`, merge with `Add`. -/
def UserToPLMCBalance.sum_accounts (self other_list : List UserToPLMCBalance) :
    List UserToPLMCBalance :=
  UserToPLMCBalance.merge_accounts (self ++ other_list) MergeOperation.Add

/-! The asset-tagged variant `Vec<UserToFundingAsset<T>>`: the merge map is keyed
by the pair `(account, asset_id)` with the tuple's lexicographic order, while
`accounts()` and the `subtract_accounts` filter still use the account alone. -/

structure UserToFundingAsset where
  account : Nat
  asset_amount : Nat
  asset_id : Nat
deriving DecidableEq, Repr

/-- Lexicographic order of `(AccountId, AssetId)` keys, as used by the `BTreeMap`. -/
def pairLt (a b : Nat × Nat) : Prop := a.1 < b.1 ∨ (a.1 = b.1 ∧ a.2 < b.2)

instance : DecidablePred fun ab : (Nat × Nat) × Nat × Nat => pairLt ab.1 ab.2 :=
  fun _ => by unfold pairLt; infer_instance

instance (a b : Nat × Nat) : Decidable (pairLt a b) := by unfold pairLt; infer_instance

/-- `btreeInsertWith` for the pair-keyed map of `UserToFundingAsset`. -/
def btreePairInsertWith (op : MergeOperation) (k : Nat × Nat) (v : Nat) :
    List ((Nat × Nat) × Nat) → List ((Nat × Nat) × Nat)
  | [] => [(k, v)]
  | (k', v') :: rest =>
    if pairLt k k' then (k, v) :: (k', v') :: rest
    else if k = k' then (k', op.apply v' v) :: rest
    else (k', v') :: btreePairInsertWith op k v rest

/-- `impl Accounts for Vec<UserToFundingAsset<T>>`. -/
def UserToFundingAsset.accounts (l : List UserToFundingAsset) : List Nat :=
  l.foldl (fun s e => btreeSetInsert e.account s) []

/-- `impl AccountMerge for Vec<UserToFundingAsset<T>>::merge_accounts`, keyed by
`(account, asset_id)`. -/
def UserToFundingAsset.merge_accounts (l : List UserToFundingAsset) (op : MergeOperation) :
    List UserToFundingAsset :=
  (l.foldl (fun m e => btreePairInsertWith op (e.account, e.asset_id) e.asset_amount m) []).map
    fun kv => ⟨kv.1.1, kv.2, kv.1.2⟩

/-- `subtract_accounts` for `Vec<UserToFundingAsset<T>>`: the filter keeps every
entry of the other list whose account (regardless of asset) appears in `self`. -/
def UserToFundingAsset.subtract_accounts (self other_list : List UserToFundingAsset) :
    List UserToFundingAsset :=
  let current_accounts := UserToFundingAsset.accounts self
  let filtered_list := other_list.filter fun x => current_accounts.contains x.account
  UserToFundingAsset.merge_accounts (self ++ filtered_list) MergeOperation.Subtract

/-- `sum_accounts` for `Vec<UserToFundingAsset<T>>`. -/
def UserToFundingAsset.sum_accounts (self other_list : List UserToFundingAsset) :
    List UserToFundingAsset :=
  UserToFundingAsset.merge_accounts (self ++ other_list) MergeOperation.Add

example :
    UserToPLMCBalance.subtract_accounts [⟨1, 3⟩, ⟨1, 5⟩] [⟨1, 2⟩] = [⟨1, 0⟩] := by decide

example :
    UserToPLMCBalance.subtract_accounts
      (UserToPLMCBalance.merge_accounts [⟨1, 3⟩, ⟨1, 5⟩] .Add)
      (UserToPLMCBalance.merge_accounts [⟨1, 2⟩] .Add) = [⟨1, 6⟩] := by decide

example :
    UserToFundingAsset.subtract_accounts [⟨1, 10, 0⟩] [⟨1, 7, 5⟩] =
      [⟨1, 10, 0⟩, ⟨1, 7, 5⟩] := by decide

/-! ## Lemmas about the embedded map and set operations -/

def lookupKey (x : Nat) : List (Nat × Nat) → Option Nat
  | [] => none
  | (k, v) :: rest => if x = k then some v else lookupKey x rest

def KeysSorted : List (Nat × Nat) → Prop :=
  List.Pairwise fun a b => a.1 < b.1

theorem lookupKey_eq_none (x : Nat) (m : List (Nat × Nat))
    (h : ∀ kv ∈ m, x < kv.1) : lookupKey x m = none := by
  induction m with
  | nil => rfl
  | cons hd tl ih =>
    obtain ⟨k, v⟩ := hd
    have hk := h (k, v) (List.mem_cons_self _ _)
    simp only at hk
    simp only [lookupKey, if_neg (by omega : ¬ x = k)]
    exact ih fun kv hkv => h kv (List.mem_cons_of_mem _ hkv)

theorem mem_insertWith (op : MergeOperation) (k : Nat) (v : Nat)
    (m : List (Nat × Nat)) (kv : Nat × Nat)
    (h : kv ∈ btreeInsertWith op k v m) : kv.1 = k ∨ kv ∈ m := by
  induction m with
  | nil =>
    simp only [btreeInsertWith, List.mem_singleton] at h
    left; rw [h]
  | cons hd tl ih =>
    obtain ⟨k', v'⟩ := hd
    simp only [btreeInsertWith] at h
    split at h
    · rcases List.mem_cons.mp h with h | h
      · left; rw [h]
      · right; exact h
    · split at h
      · rcases List.mem_cons.mp h with h | h
        · left; rw [h]; omega
        · right; exact List.mem_cons_of_mem _ h
      · rcases List.mem_cons.mp h with h | h
        · right; rw [h]; exact List.mem_cons_self _ _
        · rcases ih h with h | h
          · left; exact h
          · right; exact List.mem_cons_of_mem _ h

theorem keysSorted_insertWith (op : MergeOperation) (k : Nat) (v : Nat)
    (m : List (Nat × Nat)) (h : KeysSorted m) :
    KeysSorted (btreeInsertWith op k v m) := by
  induction m with
  | nil => exact List.pairwise_singleton _ _
  | cons hd tl ih =>
    obtain ⟨k', v'⟩ := hd
    rcases List.pairwise_cons.mp h with ⟨h1, h2⟩
    simp only [btreeInsertWith]
    split
    · refine List.pairwise_cons.mpr ⟨?_, h⟩
      intro b hb
      rcases List.mem_cons.mp hb with hb | hb
      · rw [hb]; assumption
      · have := h1 b hb; simp only at this ⊢; omega
    · split
      · exact List.pairwise_cons.mpr ⟨h1, h2⟩
      · refine List.pairwise_cons.mpr ⟨?_, ih h2⟩
        intro b hb
        rcases mem_insertWith op k v tl b hb with hb | hb
        · simp only at *; omega
        · exact h1 b hb

theorem lookupKey_insertWith_self (op : MergeOperation) (k : Nat) (v : Nat)
    (m : List (Nat × Nat)) (h : KeysSorted m) :
    lookupKey k (btreeInsertWith op k v m) =
      some (match lookupKey k m with | some v' => op.apply v' v | none => v) := by
  induction m with
  | nil => simp [btreeInsertWith, lookupKey]
  | cons hd tl ih =>
    obtain ⟨k', v'⟩ := hd
    rcases List.pairwise_cons.mp h with ⟨h1, h2⟩
    simp only [btreeInsertWith]
    split
    · have hne : ¬ k = k' := by omega
      have htl : lookupKey k tl = none := by
        refine lookupKey_eq_none k tl fun kv hkv => ?_
        have := h1 kv hkv; simp only at this ⊢; omega
      simp [lookupKey, hne, htl]
    · split
      · next heq =>
        subst heq
        simp [lookupKey]
      · next h3 h4 =>
        have hne : ¬ k = k' := fun hc => h4 hc
        simp only [lookupKey, if_neg hne]
        exact ih h2

theorem lookupKey_insertWith_ne (op : MergeOperation) (k : Nat) (v : Nat)
    (m : List (Nat × Nat)) (x : Nat) (hx : ¬ x = k) :
    lookupKey x (btreeInsertWith op k v m) = lookupKey x m := by
  induction m with
  | nil => simp [btreeInsertWith, lookupKey, hx]
  | cons hd tl ih =>
    obtain ⟨k', v'⟩ := hd
    simp only [btreeInsertWith]
    split
    · simp [lookupKey, hx]
    · split
      · next heq =>
        subst heq
        simp [lookupKey, hx]
      · by_cases hxk : x = k'
        · simp [lookupKey, hxk]
        · simp only [lookupKey, if_neg hxk]
          exact ih

/-- The amounts carried by the entries of `l` whose account is `x`, in list order. -/
def amountsOf (x : Nat) (l : List UserToPLMCBalance) : List Nat :=
  (l.filter fun e => e.account == x).map fun e => e.plmc_amount

/-- The folding behaviour of `btreeInsertWith` at one key: the first amount is
inserted as-is (`or_insert`), later amounts are folded with `op.apply`. -/
def optFold (op : MergeOperation) (o : Option Nat) (xs : List Nat) : Option Nat :=
  xs.foldl (fun acc a => some (match acc with | some w => op.apply w a | none => a)) o

theorem optFold_some (op : MergeOperation) (w : Nat) (xs : List Nat) :
    optFold op (some w) xs = some (xs.foldl op.apply w) := by
  induction xs generalizing w with
  | nil => rfl
  | cons a xs ih => simpa [optFold, List.foldl] using ih (op.apply w a)

theorem keysSorted_mergeFold (op : MergeOperation) (l : List UserToPLMCBalance)
    (m : List (Nat × Nat)) (h : KeysSorted m) :
    KeysSorted (l.foldl (fun m e => btreeInsertWith op e.account e.plmc_amount m) m) := by
  induction l generalizing m with
  | nil => exact h
  | cons e l ih => exact ih _ (keysSorted_insertWith _ _ _ _ h)

theorem lookupKey_mergeFold (op : MergeOperation) (x : Nat) (l : List UserToPLMCBalance)
    (m : List (Nat × Nat)) (h : KeysSorted m) :
    lookupKey x (l.foldl (fun m e => btreeInsertWith op e.account e.plmc_amount m) m) =
      optFold op (lookupKey x m) (amountsOf x l) := by
  induction l generalizing m with
  | nil => rfl
  | cons e l ih =>
    simp only [List.foldl_cons]
    rw [ih _ (keysSorted_insertWith _ _ _ _ h)]
    by_cases hx : x = e.account
    · subst hx
      rw [lookupKey_insertWith_self _ _ _ _ h]
      simp [amountsOf, optFold, List.filter_cons]
    · rw [lookupKey_insertWith_ne _ _ _ _ _ hx]
      have : (e.account == x) = false := by
        simp only [beq_eq_false_iff_ne, ne_eq]
        omega
      simp [amountsOf, List.filter_cons, this]

theorem keysSorted_mergeMap (op : MergeOperation) (l : List UserToPLMCBalance) :
    KeysSorted (UserToPLMCBalance.mergeMap op l) :=
  keysSorted_mergeFold op l [] List.Pairwise.nil

theorem lookupKey_mergeMap (op : MergeOperation) (x : Nat) (l : List UserToPLMCBalance) :
    lookupKey x (UserToPLMCBalance.mergeMap op l) = optFold op none (amountsOf x l) :=
  lookupKey_mergeFold op x l [] List.Pairwise.nil

theorem lookupKey_eq_none_iff (x : Nat) (m : List (Nat × Nat)) :
    lookupKey x m = none ↔ x ∉ m.map Prod.fst := by
  induction m with
  | nil => simp [lookupKey]
  | cons hd tl ih =>
    obtain ⟨k, v⟩ := hd
    by_cases hx : x = k
    · subst hx
      simp [lookupKey]
    · simp [lookupKey, hx, ih]

theorem amountsOf_eq_nil_iff (x : Nat) (l : List UserToPLMCBalance) :
    amountsOf x l = [] ↔ x ∉ l.map fun e => e.account := by
  simp only [amountsOf, List.map_eq_nil_iff, List.filter_eq_nil_iff]
  constructor
  · intro h hc
    rcases List.mem_map.mp hc with ⟨e, he, hex⟩
    exact absurd (beq_iff_eq.mpr hex) (by simpa using h e he)
  · intro h e he hc
    exact h (List.mem_map.mpr ⟨e, he, beq_iff_eq.mp hc⟩)

theorem optFold_none_ne_none (op : MergeOperation) (a : Nat) (xs : List Nat) :
    optFold op none (a :: xs) ≠ none := by
  simp [optFold, List.foldl_cons]
  rw [show (List.foldl (fun acc a => some (match acc with | some w => op.apply w a | none => a))
      (some a) xs) = optFold op (some a) xs from rfl, optFold_some]
  simp

theorem optFold_none_eq_none_iff (op : MergeOperation) (xs : List Nat) :
    optFold op none xs = none ↔ xs = [] := by
  cases xs with
  | nil => simp [optFold]
  | cons a xs => simpa using optFold_none_ne_none op a xs

theorem foldl_saturating_add (xs : List Nat) (v : Nat) (hv : v ≤ u128Max) :
    xs.foldl MergeOperation.Add.apply v = min (v + xs.sum) u128Max := by
  induction xs generalizing v with
  | nil => simp [Nat.min_eq_left hv]
  | cons a xs ih =>
    simp only [List.foldl_cons, List.sum_cons]
    rw [show MergeOperation.Add.apply v a = min (v + a) u128Max from rfl,
      ih _ (Nat.min_le_right _ _)]
    omega

theorem foldl_saturating_sub (xs : List Nat) (v : Nat) :
    xs.foldl MergeOperation.Subtract.apply v = v - xs.sum := by
  induction xs generalizing v with
  | nil => rfl
  | cons a xs ih =>
    simp only [List.foldl_cons, List.sum_cons]
    rw [show MergeOperation.Subtract.apply v a = v - a from rfl, ih]
    omega

theorem optFold_add_closed (xs : List Nat) (a : Nat) (ha : a ≤ u128Max) :
    optFold MergeOperation.Add none (a :: xs) = some (min ((a :: xs).sum) u128Max) := by
  have : optFold MergeOperation.Add none (a :: xs) = optFold MergeOperation.Add (some a) xs := rfl
  rw [this, optFold_some, foldl_saturating_add xs a ha]
  simp

theorem optFold_sub_closed (xs : List Nat) (a : Nat) :
    optFold MergeOperation.Subtract none (a :: xs) = some (a - xs.sum) := by
  have : optFold MergeOperation.Subtract none (a :: xs) =
      optFold MergeOperation.Subtract (some a) xs := rfl
  rw [this, optFold_some, foldl_saturating_sub]

theorem mem_btreeSetInsert (x a : Nat) (s : List Nat) :
    x ∈ btreeSetInsert a s ↔ x = a ∨ x ∈ s := by
  induction s with
  | nil => simp [btreeSetInsert]
  | cons b s ih =>
    simp only [btreeSetInsert]
    split
    · simp
    · split
      · next heq =>
        subst heq
        simp only [List.mem_cons]
        constructor
        · intro h; exact Or.inr h
        · rintro (h | h)
          · exact Or.inl (by omega)
          · exact h
      · simp only [List.mem_cons, ih]
        tauto

theorem mem_setFold (x : Nat) (accs : List Nat) (s : List Nat) :
    x ∈ accs.foldl (fun s a => btreeSetInsert a s) s ↔ x ∈ s ∨ x ∈ accs := by
  induction accs generalizing s with
  | nil => simp
  | cons a accs ih =>
    simp only [List.foldl_cons, ih, mem_btreeSetInsert, List.mem_cons]
    tauto

theorem mem_accounts (x : Nat) (l : List UserToPLMCBalance) :
    x ∈ UserToPLMCBalance.accounts l ↔ x ∈ l.map fun e => e.account := by
  unfold UserToPLMCBalance.accounts
  have : ∀ (l : List UserToPLMCBalance) (s : List Nat),
      l.foldl (fun s e => btreeSetInsert e.account s) s =
        (l.map fun e => e.account).foldl (fun s a => btreeSetInsert a s) s := by
    intro l
    induction l with
    | nil => intro s; rfl
    | cons e l ih => intro s; simp [List.foldl_cons, ih]
  rw [this, mem_setFold]
  simp

theorem keysSorted_ext (m₁ m₂ : List (Nat × Nat)) (h₁ : KeysSorted m₁)
    (h₂ : KeysSorted m₂) (h : ∀ x, lookupKey x m₁ = lookupKey x m₂) : m₁ = m₂ := by
  induction m₁ generalizing m₂ with
  | nil =>
    cases m₂ with
    | nil => rfl
    | cons kv tl =>
      obtain ⟨k, v⟩ := kv
      have := h k
      simp [lookupKey] at this
  | cons kv tl ih =>
    obtain ⟨k, v⟩ := kv
    cases m₂ with
    | nil =>
      have := h k
      simp [lookupKey] at this
    | cons kv' tl' =>
      obtain ⟨k', v'⟩ := kv'
      rcases List.pairwise_cons.mp h₁ with ⟨hk1, htl1⟩
      rcases List.pairwise_cons.mp h₂ with ⟨hk2, htl2⟩
      have hkk : k = k' := by
        by_contra hne
        rcases Nat.lt_or_ge k k' with hlt | hge
        · have hl := h k
          have hnone : lookupKey k tl' = none :=
            lookupKey_eq_none k tl' fun kv hkv => by have := hk2 kv hkv; omega
          simp [lookupKey, (by omega : ¬ k = k'), hnone] at hl
          exact hne hl.1
        · have hgt : k' < k := by omega
          have hl := h k'
          have hnone : lookupKey k' tl = none :=
            lookupKey_eq_none k' tl fun kv hkv => by have := hk1 kv hkv; omega
          simp [lookupKey, (by omega : ¬ k' = k), hnone] at hl
          exact hne hl.1.symm
      subst hkk
      have hvv : v = v' := by
        have := h k
        simpa [lookupKey] using this
      subst hvv
      have htail : ∀ x, lookupKey x tl = lookupKey x tl' := by
        intro x
        by_cases hx : x = k
        · subst hx
          rw [lookupKey_eq_none x tl fun kv hkv => hk1 kv hkv,
            lookupKey_eq_none x tl' fun kv hkv => hk2 kv hkv]
        · have := h x
          simpa [lookupKey, hx] using this
      rw [ih tl' htl1 htl2 htail]

theorem amountsOf_map_mk (x : Nat) (m : List (Nat × Nat)) (h : KeysSorted m) :
    amountsOf x (m.map fun kv => (⟨kv.1, kv.2⟩ : UserToPLMCBalance)) =
      (lookupKey x m).toList := by
  induction m with
  | nil => rfl
  | cons kv tl ih =>
    obtain ⟨k, v⟩ := kv
    rcases List.pairwise_cons.mp h with ⟨hk, htl⟩
    by_cases hx : x = k
    · subst hx
      have hnone : lookupKey x tl = none :=
        lookupKey_eq_none x tl fun kv hkv => hk kv hkv
      have hnil : amountsOf x (tl.map fun kv => (⟨kv.1, kv.2⟩ : UserToPLMCBalance)) = [] := by
        rw [ih htl, hnone]; rfl
      simp [amountsOf, List.filter_cons, lookupKey] at hnil ⊢
      exact hnil
    · have hbeq : ((⟨k, v⟩ : UserToPLMCBalance).account == x) = false := by
        simp only [beq_eq_false_iff_ne, ne_eq]
        omega
      have ihx := ih htl
      simp only [amountsOf, List.map_cons, List.filter_cons] at ihx ⊢
      simp only [hbeq, Bool.false_eq_true, if_false]
      rw [ihx]
      simp [lookupKey, hx]

theorem amountsOf_append (x : Nat) (l₁ l₂ : List UserToPLMCBalance) :
    amountsOf x (l₁ ++ l₂) = amountsOf x l₁ ++ amountsOf x l₂ := by
  simp [amountsOf, List.filter_append]

theorem lookupKey_isSome_of_mem (kv : Nat × Nat) (m : List (Nat × Nat))
    (h : kv ∈ m) : lookupKey kv.1 m ≠ none := by
  induction m with
  | nil => simp at h
  | cons hd tl ih =>
    obtain ⟨k, v⟩ := hd
    by_cases hx : kv.1 = k
    · simp [lookupKey, hx]
    · rcases List.mem_cons.mp h with h | h
      · rw [h] at hx; simp at hx
      · simp only [lookupKey, if_neg hx]
        exact ih h

theorem mem_map_account_merge (op : MergeOperation) (l : List UserToPLMCBalance) (x : Nat) :
    x ∈ (UserToPLMCBalance.merge_accounts l op).map (fun e => e.account) ↔
      x ∈ l.map fun e => e.account := by
  unfold UserToPLMCBalance.merge_accounts
  rw [List.map_map]
  have hkeys : ((UserToPLMCBalance.mergeMap op l).map fun kv =>
      ((fun e : UserToPLMCBalance => e.account) ∘ fun kv : Nat × Nat => (⟨kv.1, kv.2⟩ :
        UserToPLMCBalance)) kv) = (UserToPLMCBalance.mergeMap op l).map Prod.fst := by
    simp [Function.comp]
  rw [hkeys]
  rw [← not_iff_not, ← lookupKey_eq_none_iff, lookupKey_mergeMap,
    optFold_none_eq_none_iff, amountsOf_eq_nil_iff]

theorem account_mem_of_mem_merge (op : MergeOperation) (l : List UserToPLMCBalance)
    (e : UserToPLMCBalance) (h : e ∈ UserToPLMCBalance.merge_accounts l op) :
    e.account ∈ l.map fun f => f.account := by
  rw [← mem_map_account_merge op l]
  exact List.mem_map.mpr ⟨e, h, rfl⟩

/-- Total amount attributed to account `x` by a ledger list. -/
def totalOf (l : List UserToPLMCBalance) (x : Nat) : Nat := (amountsOf x l).sum

def AmountsLeU128 (l : List UserToPLMCBalance) : Prop :=
  ∀ e ∈ l, e.plmc_amount ≤ u128Max

theorem mem_amountsOf_le (l : List UserToPLMCBalance) (hl : AmountsLeU128 l)
    (x v : Nat) (hv : v ∈ amountsOf x l) : v ≤ u128Max := by
  simp only [amountsOf, List.mem_map, List.mem_filter] at hv
  obtain ⟨e, ⟨he, _⟩, hev⟩ := hv
  rw [← hev]
  exact hl e he

theorem totalOf_merge_add (l : List UserToPLMCBalance) (hl : AmountsLeU128 l) (x : Nat) :
    totalOf (UserToPLMCBalance.merge_accounts l .Add) x =
      if amountsOf x l = [] then 0 else min (amountsOf x l).sum u128Max := by
  unfold totalOf UserToPLMCBalance.merge_accounts
  rw [amountsOf_map_mk x _ (keysSorted_mergeMap _ _), lookupKey_mergeMap]
  cases hxa : amountsOf x l with
  | nil => rfl
  | cons a r =>
    have ha : a ≤ u128Max :=
      mem_amountsOf_le l hl x a (by rw [hxa]; exact List.mem_cons_self _ _)
    rw [optFold_add_closed r a ha]
    simp

theorem contains_iff_mem_nat (s : List Nat) (y : Nat) : s.contains y = true ↔ y ∈ s :=
  List.elem_iff

/-! ## Claim theorems for the ledger aggregator -/

/-- C5: `subtract_accounts(a, b)` never contains an account that does not appear
in `a`: entries of `b` whose account is absent from `a` are filtered out before
the concatenation is merged with `Subtract`.  (In this embedding amounts are
`Nat` and `saturating_sub` is total `Nat` subtraction, so results are never
negative and no error is ever signalled.) -/
theorem subtract_accounts_no_new_accounts (a b : List UserToPLMCBalance) :
    ∀ e ∈ UserToPLMCBalance.subtract_accounts a b,
      e.account ∈ UserToPLMCBalance.accounts a := by
  intro e he
  unfold UserToPLMCBalance.subtract_accounts at he
  have hmem := account_mem_of_mem_merge _ _ _ he
  rw [List.map_append] at hmem
  rcases List.mem_append.mp hmem with hmem | hmem
  · exact (mem_accounts _ _).mpr hmem
  · rcases List.mem_map.mp hmem with ⟨f, hf, hfx⟩
    rcases List.mem_filter.mp hf with ⟨_, hfp⟩
    rw [← hfx]
    exact (contains_iff_mem_nat _ _).mp hfp

theorem subtract_accounts_no_new_accounts_witness :
    (⟨1, 2⟩ : UserToPLMCBalance).account ∈ UserToPLMCBalance.accounts [⟨1, 5⟩] :=
  subtract_accounts_no_new_accounts [⟨1, 5⟩] [⟨1, 3⟩] ⟨1, 2⟩ (by decide)

/-- C8: the per-account total of `sum_accounts` is commutative, and the account
set of the merged sum is the union of the two input account sets.  (Amounts are
assumed in u128 range, as they are in the Rust `Balance` type.) -/
theorem sum_accounts_comm_per_account (A B : List UserToPLMCBalance)
    (h : AmountsLeU128 (A ++ B)) (x : Nat) :
    totalOf (UserToPLMCBalance.sum_accounts A B) x =
      totalOf (UserToPLMCBalance.sum_accounts B A) x ∧
    (x ∈ UserToPLMCBalance.accounts (UserToPLMCBalance.sum_accounts A B) ↔
      x ∈ UserToPLMCBalance.accounts A ∨ x ∈ UserToPLMCBalance.accounts B) := by
  have hBA : AmountsLeU128 (B ++ A) := by
    intro e he
    refine h e ?_
    rw [List.mem_append] at he ⊢
    tauto
  constructor
  · unfold UserToPLMCBalance.sum_accounts
    rw [totalOf_merge_add _ h x, totalOf_merge_add _ hBA x,
      amountsOf_append, amountsOf_append]
    have hsum : (amountsOf x A ++ amountsOf x B).sum =
        (amountsOf x B ++ amountsOf x A).sum := by
      rw [List.sum_append, List.sum_append]
      omega
    have hnil : (amountsOf x A ++ amountsOf x B) = [] ↔
        (amountsOf x B ++ amountsOf x A) = [] := by
      rw [List.append_eq_nil, List.append_eq_nil]
      tauto
    by_cases hc : amountsOf x A ++ amountsOf x B = []
    · rw [if_pos hc, if_pos (hnil.mp hc)]
    · rw [if_neg hc, if_neg fun hcc => hc (hnil.mpr hcc), hsum]
  · unfold UserToPLMCBalance.sum_accounts
    rw [mem_accounts, mem_map_account_merge, mem_accounts, mem_accounts, List.map_append,
      List.mem_append]

theorem sum_accounts_comm_per_account_witness :
    totalOf (UserToPLMCBalance.sum_accounts [⟨1, 5⟩] [⟨2, 7⟩]) 2 =
      totalOf (UserToPLMCBalance.sum_accounts [⟨2, 7⟩] [⟨1, 5⟩]) 2 ∧
    ((2 : Nat) ∈ UserToPLMCBalance.accounts (UserToPLMCBalance.sum_accounts [⟨1, 5⟩] [⟨2, 7⟩]) ↔
      (2 : Nat) ∈ UserToPLMCBalance.accounts [⟨1, 5⟩] ∨
        (2 : Nat) ∈ UserToPLMCBalance.accounts [⟨2, 7⟩]) :=
  sum_accounts_comm_per_account [⟨1, 5⟩] [⟨2, 7⟩] (by unfold AmountsLeU128; decide) 2

/-- C9: for the asset-tagged lists, `subtract_accounts` can return an entry for
an `(account, asset_id)` pair that occurs in `b` but not in `a`, with `b`'s
amount unchanged as a positive balance: the filter keys on the account alone and
the `Subtract` merge inserts an unmatched key's amount as-is. -/
theorem subtract_accounts_asset_key_leak :
    ∃ (a b : List UserToFundingAsset) (e : UserToFundingAsset),
      e ∈ UserToFundingAsset.subtract_accounts a b ∧ e ∈ b ∧ 0 < e.asset_amount ∧
      ∀ ea ∈ a, ¬(ea.account = e.account ∧ ea.asset_id = e.asset_id) := by
  refine ⟨[⟨1, 10, 0⟩], [⟨1, 7, 5⟩], ⟨1, 7, 5⟩, ?_, ?_, ?_, ?_⟩ <;> decide

/-- C4 as stated is false: `subtract_accounts` does not combine duplicate
accounts of the first list additively before subtracting.  With
`a = [(1,3),(1,5)]` and `b = [(1,2)]` the raw call folds `3 ⊖ 5 ⊖ 2 = 0`
while the pre-merged call computes `8 ⊖ 2 = 6`. -/
theorem subtract_accounts_premerge_counterexample :
    UserToPLMCBalance.subtract_accounts [⟨1, 3⟩, ⟨1, 5⟩] [⟨1, 2⟩] ≠
      UserToPLMCBalance.subtract_accounts
        (UserToPLMCBalance.merge_accounts [⟨1, 3⟩, ⟨1, 5⟩] .Add)
        (UserToPLMCBalance.merge_accounts [⟨1, 2⟩] .Add) := by decide

theorem amountsOf_cons_self (e : UserToPLMCBalance) (l : List UserToPLMCBalance) (x : Nat)
    (hex : e.account = x) :
    amountsOf x (e :: l) = e.plmc_amount :: amountsOf x l := by
  simp [amountsOf, List.filter_cons, hex]

theorem amountsOf_cons_ne (e : UserToPLMCBalance) (l : List UserToPLMCBalance) (x : Nat)
    (hex : ¬ e.account = x) :
    amountsOf x (e :: l) = amountsOf x l := by
  simp [amountsOf, List.filter_cons, hex]

theorem amountsOf_filter_account (q : Nat → Bool) (x : Nat) (l : List UserToPLMCBalance) :
    amountsOf x (l.filter fun e => q e.account) =
      if q x = true then amountsOf x l else [] := by
  induction l with
  | nil => cases hq : q x <;> simp [amountsOf]
  | cons e l ih =>
    rw [List.filter_cons]
    by_cases hex : e.account = x
    · rw [hex]
      cases hqx : q x
      · simp only [Bool.false_eq_true, if_false]
        rw [ih, hqx]
        simp
      · simp only [if_true]
        rw [amountsOf_cons_self e _ x hex, amountsOf_cons_self e _ x hex, ih, hqx]
        simp
    · cases hqe : q e.account
      · simp only [Bool.false_eq_true, if_false]
        rw [ih, amountsOf_cons_ne e _ x hex]
      · simp only [if_true]
        rw [amountsOf_cons_ne e _ x hex, amountsOf_cons_ne e _ x hex, ih]

theorem amountsOf_of_dupfree (A : List UserToPLMCBalance)
    (hA : List.Pairwise (fun e1 e2 => e1.account ≠ e2.account) A) (x : Nat)
    (hx : x ∈ A.map fun e => e.account) : ∃ v, amountsOf x A = [v] := by
  induction A with
  | nil => simp at hx
  | cons e A ih =>
    rcases List.pairwise_cons.mp hA with ⟨he, hA'⟩
    by_cases hex : e.account = x
    · have hnone : amountsOf x A = [] := by
        rw [amountsOf_eq_nil_iff]
        intro hc
        rcases List.mem_map.mp hc with ⟨f, hf, hfx⟩
        exact he f hf (by rw [hex, hfx])
      exact ⟨e.plmc_amount, by rw [amountsOf_cons_self e _ x hex, hnone]⟩
    · rw [amountsOf_cons_ne e _ x hex]
      refine ih hA' ?_
      rcases List.mem_map.mp hx with ⟨f, hf, hfx⟩
      rcases List.mem_cons.mp hf with hf | hf
      · subst hf
        exact absurd hfx hex
      · exact List.mem_map.mpr ⟨f, hf, hfx⟩

theorem contains_eq_false_iff_nat (s : List Nat) (y : Nat) :
    s.contains y = false ↔ y ∉ s := by
  constructor
  · intro h hc
    rw [(contains_iff_mem_nat s y).mpr hc] at h
    simp at h
  · intro h
    cases hcs : s.contains y
    · rfl
    · exact (h ((contains_iff_mem_nat s y).mp hcs)).elim

theorem filter_contains_congr (s t : List Nat) (hst : ∀ y, y ∈ s ↔ y ∈ t)
    (l : List UserToPLMCBalance) :
    (l.filter fun e => s.contains e.account) = l.filter fun e => t.contains e.account := by
  apply List.filter_congr
  intro e _
  by_cases hy : e.account ∈ s
  · rw [(contains_iff_mem_nat s _).mpr hy, (contains_iff_mem_nat t _).mpr ((hst _).mp hy)]
  · rw [(contains_eq_false_iff_nat s _).mpr hy,
      (contains_eq_false_iff_nat t _).mpr fun hc => hy ((hst _).mpr hc)]

theorem amountsOf_merge (op : MergeOperation) (l : List UserToPLMCBalance) (x : Nat) :
    amountsOf x (UserToPLMCBalance.merge_accounts l op) =
      (optFold op none (amountsOf x l)).toList := by
  unfold UserToPLMCBalance.merge_accounts
  rw [amountsOf_map_mk _ _ (keysSorted_mergeMap _ _), lookupKey_mergeMap]

theorem optFold_none_cons (op : MergeOperation) (a : Nat) (xs : List Nat) :
    optFold op none (a :: xs) = optFold op (some a) xs := rfl

theorem optFold_singleton (op : MergeOperation) (w : Nat) : optFold op none [w] = some w := rfl

theorem amountsOf_filter_contains (s : List Nat) (x : Nat) (l : List UserToPLMCBalance) :
    amountsOf x (l.filter fun e => s.contains e.account) =
      if s.contains x = true then amountsOf x l else [] :=
  amountsOf_filter_account (fun acc => s.contains acc) x l

theorem merge_eq_of_optFold (op : MergeOperation) (l₁ l₂ : List UserToPLMCBalance)
    (h : ∀ x, optFold op none (amountsOf x l₁) = optFold op none (amountsOf x l₂)) :
    UserToPLMCBalance.merge_accounts l₁ op = UserToPLMCBalance.merge_accounts l₂ op := by
  unfold UserToPLMCBalance.merge_accounts
  apply congrArg
  apply keysSorted_ext _ _ (keysSorted_mergeMap _ _) (keysSorted_mergeMap _ _)
  intro x
  rw [lookupKey_mergeMap, lookupKey_mergeMap]
  exact h x

/-- C4 (amended): merging the empty list yields the empty list, and
`sum_accounts(a, b) = sum_accounts(merge(a, Add), merge(b, Add))` holds for all
lists with u128-range amounts; but the corresponding `subtract_accounts`
equation only holds when each account appears at most once in `a` — with
duplicates in `a` the `Subtract` merge folds saturating subtraction
entry-by-entry instead of combining the duplicates additively first. -/
theorem merge_premerge_equations :
    (∀ op : MergeOperation, UserToPLMCBalance.merge_accounts [] op = []) ∧
    (∀ A B : List UserToPLMCBalance, AmountsLeU128 (A ++ B) →
      UserToPLMCBalance.sum_accounts A B =
        UserToPLMCBalance.sum_accounts (UserToPLMCBalance.merge_accounts A .Add)
          (UserToPLMCBalance.merge_accounts B .Add)) ∧
    (∀ A B : List UserToPLMCBalance, AmountsLeU128 (A ++ B) →
      List.Pairwise (fun e1 e2 => e1.account ≠ e2.account) A →
      UserToPLMCBalance.subtract_accounts A B =
        UserToPLMCBalance.subtract_accounts (UserToPLMCBalance.merge_accounts A .Add)
          (UserToPLMCBalance.merge_accounts B .Add)) := by
  refine ⟨fun op => rfl, ?_, ?_⟩
  · intro A B hwf
    have hwfA : AmountsLeU128 A := fun e he => hwf e (List.mem_append.mpr (Or.inl he))
    have hwfB : AmountsLeU128 B := fun e he => hwf e (List.mem_append.mpr (Or.inr he))
    unfold UserToPLMCBalance.sum_accounts
    apply merge_eq_of_optFold
    intro x
    rw [amountsOf_append, amountsOf_append, amountsOf_merge, amountsOf_merge]
    cases haA : amountsOf x A with
    | nil =>
      cases haB : amountsOf x B with
      | nil => rfl
      | cons b bs =>
        have hb : b ≤ u128Max :=
          mem_amountsOf_le B hwfB x b (by rw [haB]; exact List.mem_cons_self _ _)
        rw [List.nil_append, optFold_add_closed bs b hb]
        rfl
    | cons a r =>
      have ha : a ≤ u128Max :=
        mem_amountsOf_le A hwfA x a (by rw [haA]; exact List.mem_cons_self _ _)
      cases haB : amountsOf x B with
      | nil =>
        rw [List.append_nil, optFold_add_closed r a ha]
        rfl
      | cons b bs =>
        have hb : b ≤ u128Max :=
          mem_amountsOf_le B hwfB x b (by rw [haB]; exact List.mem_cons_self _ _)
        rw [List.cons_append, optFold_add_closed (r ++ b :: bs) a ha,
          optFold_add_closed r a ha, optFold_add_closed bs b hb]
        have h2 : ∀ v w : Nat,
            optFold MergeOperation.Add none ((some v).toList ++ (some w).toList) =
              some (min (v + w) u128Max) := fun v w => rfl
        rw [h2]
        congr 1
        simp only [List.sum_cons, List.sum_append]
        omega
  · intro A B hwf hdup
    have hwfA : AmountsLeU128 A := fun e he => hwf e (List.mem_append.mpr (Or.inl he))
    have hwfB : AmountsLeU128 B := fun e he => hwf e (List.mem_append.mpr (Or.inr he))
    show UserToPLMCBalance.merge_accounts
        (A ++ B.filter fun e => (UserToPLMCBalance.accounts A).contains e.account)
        MergeOperation.Subtract =
      UserToPLMCBalance.merge_accounts
        ((UserToPLMCBalance.merge_accounts A .Add) ++
          (UserToPLMCBalance.merge_accounts B .Add).filter fun e =>
            (UserToPLMCBalance.accounts (UserToPLMCBalance.merge_accounts A .Add)).contains
              e.account)
        MergeOperation.Subtract
    rw [filter_contains_congr
      (UserToPLMCBalance.accounts (UserToPLMCBalance.merge_accounts A .Add))
      (UserToPLMCBalance.accounts A)
      (fun y => by rw [mem_accounts, mem_accounts, mem_map_account_merge])
      (UserToPLMCBalance.merge_accounts B .Add)]
    apply merge_eq_of_optFold
    intro x
    rw [amountsOf_append, amountsOf_append,
      amountsOf_filter_contains (UserToPLMCBalance.accounts A) x B,
      amountsOf_filter_contains (UserToPLMCBalance.accounts A) x
        (UserToPLMCBalance.merge_accounts B .Add),
      amountsOf_merge, amountsOf_merge]
    cases hqx : (UserToPLMCBalance.accounts A).contains x with
    | false =>
      have hxA : x ∉ A.map fun e => e.account := by
        intro hc
        rw [(contains_iff_mem_nat _ _).mpr ((mem_accounts _ _).mpr hc)] at hqx
        cases hqx
      have haA : amountsOf x A = [] := (amountsOf_eq_nil_iff _ _).mpr hxA
      rw [haA]
      simp only [Bool.false_eq_true, if_false]
      rfl
    | true =>
      have hxA : x ∈ A.map fun e => e.account :=
        (mem_accounts _ _).mp ((contains_iff_mem_nat _ _).mp hqx)
      obtain ⟨vA, hvA⟩ := amountsOf_of_dupfree A hdup x hxA
      have hvA_le : vA ≤ u128Max :=
        mem_amountsOf_le A hwfA x vA (by rw [hvA]; exact List.mem_cons_self _ _)
      rw [hvA]
      simp only [if_true]
      cases haB : amountsOf x B with
      | nil => rfl
      | cons b bs =>
        have hb : b ≤ u128Max :=
          mem_amountsOf_le B hwfB x b (by rw [haB]; exact List.mem_cons_self _ _)
        rw [List.singleton_append, optFold_none_cons, optFold_some, foldl_saturating_sub,
          optFold_add_closed bs b hb]
        have hsub : ∀ v w : Nat,
            optFold MergeOperation.Subtract none ((some v).toList ++ (some w).toList) =
              some (v - w) := fun v w => rfl
        rw [show optFold MergeOperation.Add none [vA] = some vA from rfl, hsub]
        congr 1
        simp only [List.sum_cons]
        omega

theorem merge_premerge_equations_witness :
    UserToPLMCBalance.sum_accounts [⟨1, 3⟩, ⟨1, 5⟩] [⟨1, 2⟩] =
      UserToPLMCBalance.sum_accounts
        (UserToPLMCBalance.merge_accounts [⟨1, 3⟩, ⟨1, 5⟩] .Add)
        (UserToPLMCBalance.merge_accounts [⟨1, 2⟩] .Add) ∧
    UserToPLMCBalance.subtract_accounts [⟨1, 4⟩, ⟨2, 6⟩] [⟨1, 2⟩, ⟨3, 9⟩] =
      UserToPLMCBalance.subtract_accounts
        (UserToPLMCBalance.merge_accounts [⟨1, 4⟩, ⟨2, 6⟩] .Add)
        (UserToPLMCBalance.merge_accounts [⟨1, 2⟩, ⟨3, 9⟩] .Add) :=
  ⟨merge_premerge_equations.2.1 [⟨1, 3⟩, ⟨1, 5⟩] [⟨1, 2⟩] (by unfold AmountsLeU128; decide),
   merge_premerge_equations.2.2 [⟨1, 4⟩, ⟨2, 6⟩] [⟨1, 2⟩, ⟨3, 9⟩]
     (by unfold AmountsLeU128; decide) (by decide)⟩

/-! ## Contribution Processor (`functions/4_contribution.rs`)

Embedding of `do_contribute` / `do_perform_contribution`.  Account ids, DIDs,
project ids, block numbers, policy CIDs and funding-asset ids are embedded as
`Nat`.  The weighted average price is a `FixedU128`-style fixed-point number
with `10^18` denominator, embedded as its raw `Nat` representation.  Storage is
explicit state; `#[transactional]` semantics is modelled by having every error
return discard the candidate state (see `contribute_final`). -/

inductive InvestorType
  | Retail
  | Professional
  | Institutional
deriving DecidableEq

/-- Modelled from the spec: the per-class multiplier caps `R_max < P_max < I_max`
(the constants `RETAIL_MAX_MULTIPLIER`, `PROFESSIONAL_MAX_MULTIPLIER`,
`INSTITUTIONAL_MAX_MULTIPLIER` are declared outside the provided sources). -/
def RETAIL_MAX_MULTIPLIER : Nat := 5

/-- Modelled from the spec: professional-class multiplier cap. -/
def PROFESSIONAL_MAX_MULTIPLIER : Nat := 10

/-- Modelled from the spec: institutional-class multiplier cap. -/
def INSTITUTIONAL_MAX_MULTIPLIER : Nat := 25

/-- Modelled from the spec: the investor-class ticket-size bounds, with an
optional minimum USD amount per participation and an optional maximum
cumulative USD amount per DID. -/
structure TicketSize where
  usd_minimum_per_participation : Option Nat
  usd_maximum_per_did : Option Nat
deriving DecidableEq

/-- Modelled from the spec: a ticket passes the minimum-size check when it is at
least the configured minimum (no minimum configured accepts everything). -/
def TicketSize.usd_ticket_above_minimum_per_participation (ts : TicketSize)
    (usd_amount : Nat) : Bool :=
  match ts.usd_minimum_per_participation with
  | some min_usd => decide (min_usd ≤ usd_amount)
  | none => true

/-- Modelled from the spec: the cumulative USD bought by a DID passes the
per-DID ceiling check when it does not exceed the configured maximum. -/
def TicketSize.usd_ticket_below_maximum_per_did (ts : TicketSize) (usd_amount : Nat) : Bool :=
  match ts.usd_maximum_per_did with
  | some max_usd => decide (usd_amount ≤ max_usd)
  | none => true

structure ContributingTicketSizes where
  retail : TicketSize
  professional : TicketSize
  institutional : TicketSize
deriving DecidableEq

/-- The fields of `ProjectMetadata` read by the contribution flow. -/
structure ProjectMetadata where
  contributing_ticket_sizes : ContributingTicketSizes
  participation_currencies : List Nat
  policy_ipfs_cid : Option Nat
deriving DecidableEq

inductive ProjectStatus
  | Application
  | EvaluationRound
  | AuctionRound
  | CommunityRound (remainder_start : Nat)
  | FundingSuccessful
  | FundingFailed
deriving DecidableEq

/-- `project_details.round_duration`; `endBlock` is `round_duration.end()`. -/
structure RoundDuration where
  startBlock : Option Nat
  endBlock : Option Nat
deriving DecidableEq

/-- The fields of `ProjectDetails` read or written by the contribution flow. -/
structure ProjectDetails where
  issuer_did : Nat
  status : ProjectStatus
  round_duration : RoundDuration
  weighted_average_price : Option Nat
  remaining_contribution_tokens : Nat
  funding_amount_reached_usd : Nat
deriving DecidableEq

/-- `ContributionInfoOf<T>` as stored in the `Contributions` map. -/
structure ContributionInfo where
  did : Nat
  id : Nat
  project_id : Nat
  contributor : Nat
  ct_amount : Nat
  usd_contribution_amount : Nat
  multiplier : Nat
  funding_asset : Nat
  funding_asset_amount : Nat
  plmc_bond : Nat
  when : Nat
deriving DecidableEq

/-- The storage touched by the contribution flow, plus the external
collaborators' state (block number, oracle prices, custody balances). -/
structure Storage where
  now : Nat
  projectsDetails : Nat → Option ProjectDetails
  projectsMetadata : Nat → Option ProjectMetadata
  didWithWinningBids : Nat → Nat → Bool
  contributions : List ContributionInfo
  contributionBoughtUSD : Nat → Nat → Nat
  nextContributionId : Nat
  plmcUsdPrice : Nat
  fundingAssetPrice : Nat → Option Nat
  plmcFree : Nat → Nat
  plmcHeld : Nat → Nat
  fundingAssetFree : Nat → Nat → Nat
  fundingAssetHeld : Nat → Nat → Nat

inductive ContribError
  | ProjectDetailsNotFound
  | IncorrectRound
  | ImpossibleState
  | UserHasWinningBid
  | TooLateForRound
  | ProjectSoldOut
  | ProjectMetadataNotFound
  | WapNotSet
  | BadMath
  | PolicyMismatch
  | ForbiddenMultiplier
  | FundingAssetNotAccepted
  | ParticipationToOwnProject
  | TooManyUserParticipations
  | TooLow
  | TooHigh
  | ParticipantNotEnoughFunds
  | PriceNotFound
deriving DecidableEq

/-- The fixed-point denominator of `FixedU128` (18 decimals). -/
def FIXED_ONE : Nat := 10 ^ 18

/-- `FixedU128::checked_mul_int`: `⌊price·n⌋`, `None` on u128 overflow
(`sp_arithmetic` semantics; external to the provided sources). -/
def checked_mul_int (price n : Nat) : Option Nat :=
  let r := price * n / FIXED_ONE
  if r ≤ u128Max then some r else none

/-- An external escrow invocation performed by the contribution flow. -/
inductive EscrowCall
  | plmcLock (account : Nat) (amount : Nat)
  | fundingHold (account : Nat) (amount : Nat) (asset : Nat)
deriving DecidableEq

/-- Modelled from the spec: custody hold on the native token
(`try_plmc_participation_lock` is declared outside the provided sources); it
fails with an insufficient-balance error when the free balance is too small,
otherwise it moves the amount from free to held. -/
def try_plmc_participation_lock (st : Storage) (who : Nat) (amount : Nat) :
    Except ContribError Storage :=
  if amount ≤ st.plmcFree who then
    .ok { st with
      plmcFree := fun a => if a = who then st.plmcFree who - amount else st.plmcFree a,
      plmcHeld := fun a => if a = who then st.plmcHeld who + amount else st.plmcHeld a }
  else .error .ParticipantNotEnoughFunds

/-- Modelled from the spec: custody hold on the funding asset
(`try_funding_asset_hold` is declared outside the provided sources). -/
def try_funding_asset_hold (st : Storage) (who : Nat) (amount : Nat) (asset : Nat) :
    Except ContribError Storage :=
  if amount ≤ st.fundingAssetFree who asset then
    .ok { st with
      fundingAssetFree := fun a i =>
        if a = who ∧ i = asset then st.fundingAssetFree who asset - amount
        else st.fundingAssetFree a i,
      fundingAssetHeld := fun a i =>
        if a = who ∧ i = asset then st.fundingAssetHeld who asset + amount
        else st.fundingAssetHeld a i }
  else .error .ParticipantNotEnoughFunds

/-- Modelled from the spec: `calculate_plmc_bond` (declared outside the provided
sources) converts the USD ticket divided by the multiplier into PLMC at the
oracle price; a missing price fails and an overflowing conversion fails with
`BadMath`. -/
def calculate_plmc_bond (st : Storage) (ticket_size multiplier : Nat) :
    Except ContribError Nat :=
  if st.plmcUsdPrice = 0 then .error .PriceNotFound
  else
    let bond := ticket_size / multiplier * FIXED_ONE / st.plmcUsdPrice
    if bond ≤ u128Max then .ok bond else .error .BadMath

/-- Modelled from the spec: `calculate_funding_asset_amount` (declared outside
the provided sources) converts the USD ticket into the funding asset at that
asset's oracle price. -/
def calculate_funding_asset_amount (st : Storage) (ticket_size asset : Nat) :
    Except ContribError Nat :=
  match st.fundingAssetPrice asset with
  | none => .error .PriceNotFound
  | some p =>
    if p = 0 then .error .PriceNotFound
    else
      let amt := ticket_size * FIXED_ONE / p
      if amt ≤ u128Max then .ok amt else .error .BadMath

/-- Modelled from the spec: `T::MaxContributionsPerUser`, the fixed per-user cap
on stored participations. -/
def maxContributionsPerUser : Nat := 16

/-- `DoContributeParams<T>`. -/
structure DoContributeParams where
  contributor : Nat
  project_id : Nat
  ct_amount : Nat
  multiplier : Nat
  funding_asset : Nat
  investor_type : InvestorType
  did : Nat
  whitelisted_policy : Nat
deriving DecidableEq

/-- `DoPerformContributionParams<T>` (with the already-updated project details
passed by value rather than `&mut`). -/
structure DoPerformContributionParams where
  contributor : Nat
  project_id : Nat
  project_details : ProjectDetails
  buyable_tokens : Nat
  multiplier : Nat
  funding_asset : Nat
  investor_type : InvestorType
  did : Nat
  whitelisted_policy : Nat

/-- The `match investor_type` selecting the contributing ticket-size bounds. -/
def contributor_ticket_size_for (m : ProjectMetadata) : InvestorType → TicketSize
  | .Institutional => m.contributing_ticket_sizes.institutional
  | .Professional => m.contributing_ticket_sizes.professional
  | .Retail => m.contributing_ticket_sizes.retail

/-- The `match investor_type` selecting the multiplier cap. -/
def max_multiplier_for : InvestorType → Nat
  | .Retail => RETAIL_MAX_MULTIPLIER
  | .Professional => PROFESSIONAL_MAX_MULTIPLIER
  | .Institutional => INSTITUTIONAL_MAX_MULTIPLIER

/-- `do_perform_contribution`, returning the result together with the list of
escrow calls it performed (in call order).  Storage reads, validity checks,
escrow calls and storage writes follow the source order; on success the
returned state carries all writes. -/
def do_perform_contribution (p : DoPerformContributionParams) (st : Storage) :
    Except ContribError Storage × List EscrowCall :=
  match st.projectsMetadata p.project_id with
  | none => (.error .ProjectMetadataNotFound, [])
  | some project_metadata =>
    match p.project_details.weighted_average_price with
    | none => (.error .WapNotSet, [])
    | some ct_usd_price =>
      match project_metadata.policy_ipfs_cid with
      | none => (.error .ImpossibleState, [])
      | some project_policy =>
        match checked_mul_int ct_usd_price p.buyable_tokens with
        | none => (.error .BadMath, [])
        | some ticket_size =>
          if ¬ project_policy = p.whitelisted_policy then (.error .PolicyMismatch, [])
          else if ¬ (p.multiplier ≤ max_multiplier_for p.investor_type ∧ 0 < p.multiplier) then
            (.error .ForbiddenMultiplier, [])
          else if ¬ p.funding_asset ∈ project_metadata.participation_currencies then
            (.error .FundingAssetNotAccepted, [])
          else if p.did = p.project_details.issuer_did then
            (.error .ParticipationToOwnProject, [])
          else if ¬ (st.contributions.filter fun c =>
              c.project_id == p.project_id && c.contributor == p.contributor).length <
              maxContributionsPerUser then
            (.error .TooManyUserParticipations, [])
          else if ¬ ((contributor_ticket_size_for project_metadata
                p.investor_type).usd_ticket_above_minimum_per_participation
              ticket_size = true ∨ p.project_details.remaining_contribution_tokens = 0) then
            (.error .TooLow, [])
          else if ¬ (contributor_ticket_size_for project_metadata
                p.investor_type).usd_ticket_below_maximum_per_did
              (st.contributionBoughtUSD p.project_id p.did + ticket_size) = true then
            (.error .TooHigh, [])
          else
            match calculate_plmc_bond st ticket_size p.multiplier with
            | .error e => (.error e, [])
            | .ok plmc_bond =>
              match calculate_funding_asset_amount st ticket_size p.funding_asset with
              | .error e => (.error e, [])
              | .ok funding_asset_amount =>
                let contribution_id := st.nextContributionId
                let new_contribution : ContributionInfo := {
                  did := p.did
                  id := contribution_id
                  project_id := p.project_id
                  contributor := p.contributor
                  ct_amount := p.buyable_tokens
                  usd_contribution_amount := ticket_size
                  multiplier := p.multiplier
                  funding_asset := p.funding_asset
                  funding_asset_amount := funding_asset_amount
                  plmc_bond := plmc_bond
                  when := st.now }
                let call1 := EscrowCall.plmcLock p.contributor plmc_bond
                match try_plmc_participation_lock st p.contributor plmc_bond with
                | .error e => (.error e, [call1])
                | .ok st1 =>
                  let call2 := EscrowCall.fundingHold p.contributor funding_asset_amount
                    p.funding_asset
                  match try_funding_asset_hold st1 p.contributor funding_asset_amount
                      p.funding_asset with
                  | .error e => (.error e, [call1, call2])
                  | .ok st2 =>
                    let new_details := { p.project_details with
                      funding_amount_reached_usd := saturating_add
                        p.project_details.funding_amount_reached_usd ticket_size }
                    let st3 := { st2 with
                      contributions := new_contribution :: st2.contributions
                      nextContributionId := saturating_add contribution_id 1
                      contributionBoughtUSD := fun pid did =>
                        if pid = p.project_id ∧ did = p.did then
                          st2.contributionBoughtUSD pid did + ticket_size
                        else st2.contributionBoughtUSD pid did
                      projectsDetails := fun pid =>
                        if pid = p.project_id then some new_details
                        else st2.projectsDetails pid }
                    (.ok st3, [call1, call2])

/-- `do_contribute`: round gating, winning-bid gating, clamping to the remaining
contribution tokens, then `do_perform_contribution` on the details with the
clamped amount already deducted (`saturating_reduce`). -/
def do_contribute (p : DoContributeParams) (st : Storage) :
    Except ContribError Storage × List EscrowCall :=
  match st.projectsDetails p.project_id with
  | none => (.error .ProjectDetailsNotFound, [])
  | some project_details =>
    let did_has_winning_bid := st.didWithWinningBids p.project_id p.did
    match project_details.status with
    | .CommunityRound remainder_start =>
      let remainder_started := remainder_start ≤ st.now
      match project_details.round_duration.endBlock with
      | none => (.error .ImpossibleState, [])
      | some round_end =>
        if did_has_winning_bid = false ∨ remainder_started then
          if st.now < round_end then
            let buyable_tokens := min p.ct_amount project_details.remaining_contribution_tokens
            if buyable_tokens = 0 then (.error .ProjectSoldOut, [])
            else
              let project_details' := { project_details with
                remaining_contribution_tokens :=
                  project_details.remaining_contribution_tokens - buyable_tokens }
              do_perform_contribution {
                contributor := p.contributor
                project_id := p.project_id
                project_details := project_details'
                buyable_tokens := buyable_tokens
                multiplier := p.multiplier
                funding_asset := p.funding_asset
                investor_type := p.investor_type
                did := p.did
                whitelisted_policy := p.whitelisted_policy } st
          else (.error .TooLateForRound, [])
        else (.error .UserHasWinningBid, [])
    | _ => (.error .IncorrectRound, [])

/-- The `#[transactional]` dispatch of `do_contribute`: on any error every
storage mutation performed inside the call is rolled back, so the post-call
storage is the pre-call storage. -/
def contribute_final (p : DoContributeParams) (st : Storage) : Storage :=
  match (do_contribute p st).1 with
  | .ok st' => st'
  | .error _ => st

/-! Concrete storage and parameters used by witnesses: a project in the
community round (remainder phase open at block 10, round end at block 100,
current block 50), WAP fixed at 1.0 USD/token, 50,000 remaining tokens,
retail minimum ticket 10 USD and per-DID ceiling 1,000,000 USD. -/

def tsW : TicketSize := ⟨some 10, some 1000000⟩

def mW : ProjectMetadata := ⟨⟨tsW, tsW, tsW⟩, [1984], some 7⟩

def dW : ProjectDetails :=
  ⟨99, .CommunityRound 10, ⟨some 1, some 100⟩, some FIXED_ONE, 50000, 0⟩

def stW : Storage := {
  now := 50
  projectsDetails := fun pid => if pid = 0 then some dW else none
  projectsMetadata := fun pid => if pid = 0 then some mW else none
  didWithWinningBids := fun _ _ => false
  contributions := []
  contributionBoughtUSD := fun _ _ => 0
  nextContributionId := 0
  plmcUsdPrice := FIXED_ONE
  fundingAssetPrice := fun a => if a = 1984 then some FIXED_ONE else none
  plmcFree := fun _ => 10 ^ 30
  plmcHeld := fun _ => 0
  fundingAssetFree := fun _ _ => 10 ^ 30
  fundingAssetHeld := fun _ _ => 0 }

def pW : DoContributeParams := ⟨5, 0, 60000, 1, 1984, .Retail, 3, 7⟩

example : (do_contribute pW stW).2 = [.plmcLock 5 50000, .fundingHold 5 50000 1984] := rfl

example : ∃ st', (do_contribute pW stW).1 = .ok st' ∧
    (st'.projectsDetails 0).map (fun d => d.remaining_contribution_tokens) = some 0 ∧
    st'.contributionBoughtUSD 0 3 = 50000 := ⟨_, rfl, rfl, rfl⟩

theorem try_plmc_participation_lock_ok (st : Storage) (w a : Nat) (st' : Storage)
    (h : try_plmc_participation_lock st w a = .ok st') :
    st'.contributions = st.contributions ∧ st'.projectsDetails = st.projectsDetails ∧
    st'.projectsMetadata = st.projectsMetadata ∧
    st'.contributionBoughtUSD = st.contributionBoughtUSD ∧
    st'.nextContributionId = st.nextContributionId ∧ st'.now = st.now ∧
    st'.fundingAssetFree = st.fundingAssetFree := by
  unfold try_plmc_participation_lock at h
  split at h
  · injection h with h
    subst h
    exact ⟨rfl, rfl, rfl, rfl, rfl, rfl, rfl⟩
  · simp at h

theorem try_funding_asset_hold_ok (st : Storage) (w a i : Nat) (st' : Storage)
    (h : try_funding_asset_hold st w a i = .ok st') :
    st'.contributions = st.contributions ∧ st'.projectsDetails = st.projectsDetails ∧
    st'.projectsMetadata = st.projectsMetadata ∧
    st'.contributionBoughtUSD = st.contributionBoughtUSD ∧
    st'.nextContributionId = st.nextContributionId ∧ st'.now = st.now := by
  unfold try_funding_asset_hold at h
  split at h
  · injection h with h
    subst h
    exact ⟨rfl, rfl, rfl, rfl, rfl, rfl⟩
  · simp at h

theorem do_perform_contribution_ok_shape (q : DoPerformContributionParams) (st st' : Storage)
    (hok : (do_perform_contribution q st).1 = .ok st') :
    ∃ c d', st'.contributions = c :: st.contributions ∧ c.ct_amount = q.buyable_tokens ∧
      st'.projectsDetails q.project_id = some d' ∧
      d'.remaining_contribution_tokens = q.project_details.remaining_contribution_tokens := by
  unfold do_perform_contribution at hok
  split at hok
  · exact Except.noConfusion hok
  split at hok
  · exact Except.noConfusion hok
  split at hok
  · exact Except.noConfusion hok
  split at hok
  · exact Except.noConfusion hok
  rename_i ticket_size hticket
  split at hok
  · exact Except.noConfusion hok
  split at hok
  · exact Except.noConfusion hok
  split at hok
  · exact Except.noConfusion hok
  split at hok
  · exact Except.noConfusion hok
  split at hok
  · exact Except.noConfusion hok
  split at hok
  · exact Except.noConfusion hok
  split at hok
  · exact Except.noConfusion hok
  split at hok
  · exact Except.noConfusion hok
  rename_i plmc_bond hbond
  split at hok
  · exact Except.noConfusion hok
  rename_i funding_asset_amount hfa
  split at hok
  · exact Except.noConfusion hok
  rename_i st1 hlock
  split at hok
  · exact Except.noConfusion hok
  rename_i st2 hhold
  simp only at hok
  injection hok with hok
  subst hok
  obtain ⟨hc1, hd1, -, -, -, -, -⟩ := try_plmc_participation_lock_ok _ _ _ _ hlock
  obtain ⟨hc2, hd2, -, -, -, -⟩ := try_funding_asset_hold_ok _ _ _ _ _ hhold
  refine ⟨⟨q.did, st.nextContributionId, q.project_id, q.contributor, q.buyable_tokens,
    ticket_size, q.multiplier, q.funding_asset, funding_asset_amount, plmc_bond, st.now⟩,
    ⟨q.project_details.issuer_did, q.project_details.status, q.project_details.round_duration,
      q.project_details.weighted_average_price, q.project_details.remaining_contribution_tokens,
      saturating_add q.project_details.funding_amount_reached_usd ticket_size⟩,
    ?_, rfl, ?_, rfl⟩
  · show _ :: st2.contributions = _ :: st.contributions
    rw [hc2, hc1]
  · show (if q.project_id = q.project_id then _ else _) = _
    rw [if_pos rfl]

/-- C1: in the community round the requested token amount is clamped to
`min(requested, remaining_contribution_tokens)`; if the clamp is zero the call
fails with `ProjectSoldOut` and no contribution is recorded (the transactional
state is unchanged); otherwise, on success, the recorded contribution's
`ct_amount` is exactly the clamped amount and `remaining_contribution_tokens`
decreases by exactly that amount. -/
theorem do_contribute_clamps_and_sells_out
    (p : DoContributeParams) (st : Storage) (d : ProjectDetails) (rs re : Nat)
    (hd : st.projectsDetails p.project_id = some d)
    (hs : d.status = .CommunityRound rs)
    (he : d.round_duration.endBlock = some re)
    (hw : st.didWithWinningBids p.project_id p.did = false ∨ rs ≤ st.now)
    (hlate : st.now < re) :
    (min p.ct_amount d.remaining_contribution_tokens = 0 →
      (do_contribute p st).1 = .error .ProjectSoldOut ∧ contribute_final p st = st) ∧
    (∀ st', (do_contribute p st).1 = .ok st' →
      ∃ c d', st'.contributions = c :: st.contributions ∧
        c.ct_amount = min p.ct_amount d.remaining_contribution_tokens ∧
        st'.projectsDetails p.project_id = some d' ∧
        d'.remaining_contribution_tokens =
          d.remaining_contribution_tokens - min p.ct_amount d.remaining_contribution_tokens) := by
  obtain ⟨i_did, dstatus, ⟨dsb, deb⟩, dwap, drem, dfund⟩ := d
  simp only at hs he
  subst hs
  subst he
  constructor
  · intro hzero
    have hres : (do_contribute p st).1 = .error .ProjectSoldOut := by
      unfold do_contribute
      rw [hd]
      simp only [if_pos hw, if_pos hlate]
      simp only at hzero
      rw [if_pos hzero]
    refine ⟨hres, ?_⟩
    unfold contribute_final
    rw [hres]
  · intro st' hok
    by_cases hzero : min p.ct_amount drem = 0
    · have hres : (do_contribute p st).1 = .error .ProjectSoldOut := by
        unfold do_contribute
        rw [hd]
        simp only [if_pos hw, if_pos hlate]
        rw [if_pos hzero]
      rw [hres] at hok
      exact Except.noConfusion hok
    · have hred : (do_contribute p st).1 = (do_perform_contribution
          { contributor := p.contributor
            project_id := p.project_id
            project_details := ⟨i_did, .CommunityRound rs, ⟨dsb, some re⟩, dwap,
              drem - min p.ct_amount drem, dfund⟩
            buyable_tokens := min p.ct_amount drem
            multiplier := p.multiplier
            funding_asset := p.funding_asset
            investor_type := p.investor_type
            did := p.did
            whitelisted_policy := p.whitelisted_policy } st).1 := by
        unfold do_contribute
        rw [hd]
        simp only [if_pos hw, if_pos hlate]
        rw [if_neg hzero]
      rw [hred] at hok
      obtain ⟨c, d', h1, h2, h3, h4⟩ := do_perform_contribution_ok_shape _ _ _ hok
      exact ⟨c, d', h1, h2, h3, h4⟩

/-- C2: a contribution whose ticket would push the DID's cumulative bought USD
over the investor-class per-DID ceiling fails with `TooHigh`, and (as for every
error return of the transactional `do_contribute`) the post-call storage is the
pre-call storage — no partial write is observable. -/
theorem do_contribute_rejects_over_ceiling
    (p : DoContributeParams) (st : Storage) (d : ProjectDetails) (rs re : Nat)
    (m : ProjectMetadata) (wap ticket : Nat)
    (hd : st.projectsDetails p.project_id = some d)
    (hs : d.status = .CommunityRound rs)
    (he : d.round_duration.endBlock = some re)
    (hw : st.didWithWinningBids p.project_id p.did = false ∨ rs ≤ st.now)
    (hlate : st.now < re)
    (hbuy : ¬ min p.ct_amount d.remaining_contribution_tokens = 0)
    (hm : st.projectsMetadata p.project_id = some m)
    (hwap : d.weighted_average_price = some wap)
    (hcid : m.policy_ipfs_cid = some p.whitelisted_policy)
    (hticket : checked_mul_int wap (min p.ct_amount d.remaining_contribution_tokens) =
      some ticket)
    (hmul : p.multiplier ≤ max_multiplier_for p.investor_type ∧ 0 < p.multiplier)
    (hcur : p.funding_asset ∈ m.participation_currencies)
    (hown : ¬ p.did = d.issuer_did)
    (hcount : (st.contributions.filter fun c =>
        c.project_id == p.project_id && c.contributor == p.contributor).length <
      maxContributionsPerUser)
    (hmin : (contributor_ticket_size_for m
        p.investor_type).usd_ticket_above_minimum_per_participation ticket = true ∨
      d.remaining_contribution_tokens - min p.ct_amount d.remaining_contribution_tokens = 0)
    (hhigh : ¬ (contributor_ticket_size_for m p.investor_type).usd_ticket_below_maximum_per_did
      (st.contributionBoughtUSD p.project_id p.did + ticket) = true) :
    (do_contribute p st).1 = .error .TooHigh ∧ contribute_final p st = st ∧
    (∀ (p' : DoContributeParams) (st'' : Storage) (e : ContribError),
      (do_contribute p' st'').1 = .error e → contribute_final p' st'' = st'') := by
  obtain ⟨i_did, dstatus, ⟨dsb, deb⟩, dwap, drem, dfund⟩ := d
  obtain ⟨mcts, mcur, mcid⟩ := m
  simp only at hs he hwap hcid hown hcur hmin hhigh hbuy hticket
  subst hs
  subst he
  subst hwap
  subst hcid
  have hres : (do_contribute p st).1 = .error .TooHigh := by
    unfold do_contribute
    rw [hd]
    simp only [if_pos hw, if_pos hlate]
    rw [if_neg hbuy]
    unfold do_perform_contribution
    rw [hm]
    simp only
    rw [hticket]
    simp only
    rw [if_neg fun hc => hc trivial]
    rw [if_neg (not_not_intro hmul)]
    rw [if_neg (not_not_intro hcur)]
    rw [if_neg hown]
    rw [if_neg (not_not_intro hcount)]
    rw [if_neg (not_not_intro hmin)]
    rw [if_pos hhigh]
  refine ⟨hres, ?_, ?_⟩
  · unfold contribute_final
    rw [hres]
  · intro p' st'' e herr
    unfold contribute_final
    rw [herr]

theorem do_contribute_clamps_and_sells_out_witness :
    (min pW.ct_amount dW.remaining_contribution_tokens = 0 →
      (do_contribute pW stW).1 = .error .ProjectSoldOut ∧ contribute_final pW stW = stW) ∧
    (∀ st', (do_contribute pW stW).1 = .ok st' →
      ∃ c d', st'.contributions = c :: stW.contributions ∧
        c.ct_amount = min pW.ct_amount dW.remaining_contribution_tokens ∧
        st'.projectsDetails pW.project_id = some d' ∧
        d'.remaining_contribution_tokens =
          dW.remaining_contribution_tokens -
            min pW.ct_amount dW.remaining_contribution_tokens) :=
  do_contribute_clamps_and_sells_out pW stW dW 10 100 rfl rfl rfl (Or.inl rfl) (by decide)

/-- Same storage as `stW` but with 999,999 USD already bought by every DID, so
the next 50,000 USD ticket crosses the 1,000,000 USD per-DID ceiling. -/
def stC2 : Storage := { stW with contributionBoughtUSD := fun _ _ => 999999 }

theorem do_contribute_rejects_over_ceiling_witness :
    (do_contribute pW stC2).1 = .error .TooHigh ∧ contribute_final pW stC2 = stC2 ∧
    (∀ (p' : DoContributeParams) (st'' : Storage) (e : ContribError),
      (do_contribute p' st'').1 = .error e → contribute_final p' st'' = st'') :=
  do_contribute_rejects_over_ceiling pW stC2 dW 10 100 mW FIXED_ONE 50000
    rfl rfl rfl (Or.inl rfl) (by decide) (by decide) rfl rfl rfl (by decide)
    (by decide) (by decide) (by decide) (by decide) (Or.inl (by decide)) (by decide)

/-- Project details identical to `dW` but with the contribution tokens sold out. -/
def dSoldOut : ProjectDetails :=
  ⟨99, .CommunityRound 10, ⟨some 1, some 100⟩, some FIXED_ONE, 0, 0⟩

def stSoldOut : Storage :=
  { stW with projectsDetails := fun pid => if pid = 0 then some dSoldOut else none }

/-- C3 as stated is false: with `remaining_contribution_tokens = 0` the clamp is
zero and `do_contribute` returns `Err(ProjectSoldOut)` — it does not proceed as
a dust no-op. -/
theorem zero_clamp_fails_not_noop :
    (do_contribute pW stSoldOut).1 = .error .ProjectSoldOut ∧
    ∀ st', (do_contribute pW stSoldOut).1 ≠ .ok st' := by
  constructor
  · rfl
  · intro st' h
    rw [show (do_contribute pW stSoldOut).1 = .error .ProjectSoldOut from rfl] at h
    exact Except.noConfusion h

theorem try_plmc_participation_lock_of_le (st : Storage) (w a : Nat)
    (h : a ≤ st.plmcFree w) :
    try_plmc_participation_lock st w a = .ok { st with
      plmcFree := fun x => if x = w then st.plmcFree w - a else st.plmcFree x,
      plmcHeld := fun x => if x = w then st.plmcHeld w + a else st.plmcHeld x } := by
  unfold try_plmc_participation_lock
  rw [if_pos h]

theorem try_funding_asset_hold_of_le (st : Storage) (w a i : Nat)
    (h : a ≤ st.fundingAssetFree w i) :
    try_funding_asset_hold st w a i = .ok { st with
      fundingAssetFree := fun x j =>
        if x = w ∧ j = i then st.fundingAssetFree w i - a else st.fundingAssetFree x j,
      fundingAssetHeld := fun x j =>
        if x = w ∧ j = i then st.fundingAssetHeld w i + a else st.fundingAssetHeld x j } := by
  unfold try_funding_asset_hold
  rw [if_pos h]

/-- C3 (amended): the `remaining_contribution_tokens.is_zero()` carve-out in the
minimum-ticket check refers to the remaining tokens after deducting the clamped
amount, so the buyer who takes exactly the final sliver of supply succeeds even
when the resulting ticket is below the configured minimum (all other checks
passing); a zero clamp, by contrast, fails with `ProjectSoldOut`
(see the counterexample). -/
theorem sellout_dust_carveout
    (p : DoContributeParams) (st : Storage) (d : ProjectDetails) (rs re : Nat)
    (m : ProjectMetadata) (wap ticket bond famt : Nat)
    (hd : st.projectsDetails p.project_id = some d)
    (hs : d.status = .CommunityRound rs)
    (he : d.round_duration.endBlock = some re)
    (hw : st.didWithWinningBids p.project_id p.did = false ∨ rs ≤ st.now)
    (hlate : st.now < re)
    (hsell : d.remaining_contribution_tokens ≤ p.ct_amount)
    (hpos : 0 < d.remaining_contribution_tokens)
    (hm : st.projectsMetadata p.project_id = some m)
    (hwap : d.weighted_average_price = some wap)
    (hcid : m.policy_ipfs_cid = some p.whitelisted_policy)
    (hticket : checked_mul_int wap d.remaining_contribution_tokens = some ticket)
    (hbelow : (contributor_ticket_size_for m
      p.investor_type).usd_ticket_above_minimum_per_participation ticket = false)
    (hmul : p.multiplier ≤ max_multiplier_for p.investor_type ∧ 0 < p.multiplier)
    (hcur : p.funding_asset ∈ m.participation_currencies)
    (hown : ¬ p.did = d.issuer_did)
    (hcount : (st.contributions.filter fun c =>
        c.project_id == p.project_id && c.contributor == p.contributor).length <
      maxContributionsPerUser)
    (hhigh : (contributor_ticket_size_for m p.investor_type).usd_ticket_below_maximum_per_did
      (st.contributionBoughtUSD p.project_id p.did + ticket) = true)
    (hbond : calculate_plmc_bond st ticket p.multiplier = .ok bond)
    (hfa : calculate_funding_asset_amount st ticket p.funding_asset = .ok famt)
    (hfree1 : bond ≤ st.plmcFree p.contributor)
    (hfree2 : famt ≤ st.fundingAssetFree p.contributor p.funding_asset) :
    ∃ st', (do_contribute p st).1 = .ok st' := by
  obtain ⟨i_did, dstatus, ⟨dsb, deb⟩, dwap, drem, dfund⟩ := d
  obtain ⟨mcts, mcur, mcid⟩ := m
  simp only at hs he hwap hcid hown hcur hsell hpos hticket hbelow hhigh
  subst hs
  subst he
  subst hwap
  subst hcid
  have hmin : min p.ct_amount drem = drem := Nat.min_eq_right hsell
  have hbuy : ¬ min p.ct_amount drem = 0 := by omega
  apply Exists.intro
  unfold do_contribute
  rw [hd]
  simp only [if_pos hw, if_pos hlate]
  rw [if_neg hbuy]
  unfold do_perform_contribution
  rw [hm]
  simp only
  rw [hmin, hticket]
  simp only
  rw [if_neg fun hc => hc trivial]
  rw [if_neg (not_not_intro hmul)]
  rw [if_neg (not_not_intro hcur)]
  rw [if_neg hown]
  rw [if_neg (not_not_intro hcount)]
  rw [if_neg (not_not_intro (Or.inr (by omega)))]
  rw [if_neg (not_not_intro hhigh)]
  rw [hbond]
  simp only
  rw [hfa]
  simp only
  rw [try_plmc_participation_lock_of_le st p.contributor bond hfree1]
  simp only
  rw [try_funding_asset_hold_of_le
    { st with
      plmcFree := fun x =>
        if x = p.contributor then st.plmcFree p.contributor - bond else st.plmcFree x,
      plmcHeld := fun x =>
        if x = p.contributor then st.plmcHeld p.contributor + bond else st.plmcHeld x }
    p.contributor famt p.funding_asset hfree2]

/-- Project details identical to `dW` but with only a 5-token dust remainder,
whose 5 USD ticket is below the 10 USD minimum. -/
def dDust : ProjectDetails :=
  ⟨99, .CommunityRound 10, ⟨some 1, some 100⟩, some FIXED_ONE, 5, 0⟩

def stDust : Storage :=
  { stW with projectsDetails := fun pid => if pid = 0 then some dDust else none }

theorem sellout_dust_carveout_witness :
    ∃ st', (do_contribute pW stDust).1 = .ok st' :=
  sellout_dust_carveout pW stDust dDust 10 100 mW FIXED_ONE 5 5 5
    rfl rfl rfl (Or.inl rfl) (by decide) (by decide) (by decide) rfl rfl rfl
    (by decide) (by decide) (by decide) (by decide) (by decide) (by decide)
    (by decide) rfl rfl (by decide) (by decide)

theorem calculate_plmc_bond_err (st : Storage)
    (ticket multiplier : Nat) (e : ContribError)
    (h : calculate_plmc_bond st ticket multiplier = .error e) :
    e = .PriceNotFound ∨ e = .BadMath := by
  unfold calculate_plmc_bond at h
  split at h
  · injection h with h
    exact Or.inl h.symm
  · simp only at h
    split at h
    · exact Except.noConfusion h
    · injection h with h
      exact Or.inr h.symm

theorem calculate_funding_asset_amount_err (st : Storage) (ticket asset : Nat)
    (e : ContribError) (h : calculate_funding_asset_amount st ticket asset = .error e) :
    e = .PriceNotFound ∨ e = .BadMath := by
  unfold calculate_funding_asset_amount at h
  split at h
  · injection h with h
    exact Or.inl h.symm
  · split at h
    · injection h with h
      exact Or.inl h.symm
    · simp only at h
      split at h
      · exact Except.noConfusion h
      · injection h with h
        exact Or.inr h.symm

theorem try_plmc_participation_lock_err (st : Storage) (w a : Nat) (e : ContribError)
    (h : try_plmc_participation_lock st w a = .error e) :
    e = .ParticipantNotEnoughFunds := by
  unfold try_plmc_participation_lock at h
  split at h
  · exact Except.noConfusion h
  · injection h with h
    exact h.symm

theorem try_funding_asset_hold_err (st : Storage) (w a i : Nat) (e : ContribError)
    (h : try_funding_asset_hold st w a i = .error e) :
    e = .ParticipantNotEnoughFunds := by
  unfold try_funding_asset_hold at h
  split at h
  · exact Except.noConfusion h
  · injection h with h
    exact h.symm

theorem do_perform_no_winning_bid (q : DoPerformContributionParams) (st : Storage) :
    (do_perform_contribution q st).1 ≠ .error .UserHasWinningBid := by
  intro h
  unfold do_perform_contribution at h
  split at h
  · simp at h
  split at h
  · simp at h
  split at h
  · simp at h
  split at h
  · simp at h
  split at h
  · simp at h
  split at h
  · simp at h
  split at h
  · simp at h
  split at h
  · simp at h
  split at h
  · simp at h
  split at h
  · simp at h
  split at h
  · simp at h
  split at h
  · rename_i e heq
    simp only at h
    injection h with h
    subst h
    rcases calculate_plmc_bond_err st _ _ _ heq with h' | h' <;>
      exact ContribError.noConfusion h'
  split at h
  · rename_i e heq
    simp only at h
    injection h with h
    subst h
    rcases calculate_funding_asset_amount_err st _ _ _ heq with h' | h' <;>
      exact ContribError.noConfusion h'
  split at h
  · rename_i e heq
    simp only at h
    injection h with h
    subst h
    exact ContribError.noConfusion (try_plmc_participation_lock_err _ _ _ _ heq)
  split at h
  · rename_i e heq
    simp only at h
    injection h with h
    subst h
    exact ContribError.noConfusion (try_funding_asset_hold_err _ _ _ _ _ heq)
  simp at h

/-- C6: while the community round is open, a DID holding a winning bid is
rejected with `UserHasWinningBid` strictly before the remainder start block;
from the remainder start block on, `do_contribute` never fails with
`UserHasWinningBid`. -/
theorem winning_bid_gate
    (p : DoContributeParams) (st : Storage) (d : ProjectDetails) (rs re : Nat)
    (hd : st.projectsDetails p.project_id = some d)
    (hs : d.status = .CommunityRound rs)
    (he : d.round_duration.endBlock = some re) :
    (st.didWithWinningBids p.project_id p.did = true → st.now < rs →
      (do_contribute p st).1 = .error .UserHasWinningBid) ∧
    (rs ≤ st.now → (do_contribute p st).1 ≠ .error .UserHasWinningBid) := by
  obtain ⟨i_did, dstatus, ⟨dsb, deb⟩, dwap, drem, dfund⟩ := d
  simp only at hs he
  subst hs
  subst he
  constructor
  · intro hwb hnow
    unfold do_contribute
    rw [hd]
    simp only
    rw [if_neg ?_]
    rintro (h | h)
    · rw [hwb] at h
      exact Bool.noConfusion h
    · omega
  · intro hrs h
    unfold do_contribute at h
    rw [hd] at h
    simp only at h
    rw [if_pos (Or.inr hrs)] at h
    split at h
    · split at h
      · simp at h
      · exact do_perform_no_winning_bid _ _ h
    · simp at h

/-- Same storage as `stW` but at block 5 (before the remainder start block 10)
with the caller's DID holding a winning bid. -/
def stWin : Storage := { stW with now := 5, didWithWinningBids := fun _ _ => true }

theorem winning_bid_gate_witness :
    (stWin.didWithWinningBids pW.project_id pW.did = true → stWin.now < 10 →
      (do_contribute pW stWin).1 = .error .UserHasWinningBid) ∧
    (10 ≤ stWin.now → (do_contribute pW stWin).1 ≠ .error .UserHasWinningBid) :=
  winning_bid_gate pW stWin dW 10 100 rfl rfl rfl

/-- C7: a multiplier of zero, or one exceeding the caller's investor-class
maximum, fails with `ForbiddenMultiplier`, and the returned escrow-call list is
empty: the failure happens before `try_plmc_participation_lock` and
`try_funding_asset_hold` are invoked, so no funds are locked. -/
theorem forbidden_multiplier_before_escrow
    (p : DoContributeParams) (st : Storage) (d : ProjectDetails) (rs re : Nat)
    (m : ProjectMetadata) (wap ticket : Nat)
    (hd : st.projectsDetails p.project_id = some d)
    (hs : d.status = .CommunityRound rs)
    (he : d.round_duration.endBlock = some re)
    (hw : st.didWithWinningBids p.project_id p.did = false ∨ rs ≤ st.now)
    (hlate : st.now < re)
    (hbuy : ¬ min p.ct_amount d.remaining_contribution_tokens = 0)
    (hm : st.projectsMetadata p.project_id = some m)
    (hwap : d.weighted_average_price = some wap)
    (hcid : m.policy_ipfs_cid = some p.whitelisted_policy)
    (hticket : checked_mul_int wap (min p.ct_amount d.remaining_contribution_tokens) =
      some ticket)
    (hbad : p.multiplier = 0 ∨ max_multiplier_for p.investor_type < p.multiplier) :
    do_contribute p st = (.error .ForbiddenMultiplier, []) := by
  obtain ⟨i_did, dstatus, ⟨dsb, deb⟩, dwap, drem, dfund⟩ := d
  obtain ⟨mcts, mcur, mcid⟩ := m
  simp only at hs he hwap hcid hbuy hticket
  subst hs
  subst he
  subst hwap
  subst hcid
  unfold do_contribute
  rw [hd]
  simp only [if_pos hw, if_pos hlate]
  rw [if_neg hbuy]
  unfold do_perform_contribution
  rw [hm]
  simp only
  rw [hticket]
  simp only
  rw [if_neg fun hc => hc trivial]
  rw [if_pos ?_]
  intro hc
  rcases hc with ⟨h1, h2⟩
  rcases hbad with h | h <;> omega

def pBadMult : DoContributeParams := ⟨5, 0, 60000, 9, 1984, .Retail, 3, 7⟩

theorem forbidden_multiplier_before_escrow_witness :
    do_contribute pBadMult stW = (.error .ForbiddenMultiplier, []) :=
  forbidden_multiplier_before_escrow pBadMult stW dW 10 100 mW FIXED_ONE 50000
    rfl rfl rfl (Or.inl rfl) (by decide) (by decide) rfl rfl rfl (by decide)
    (Or.inr (by decide))

/-- The exact argument `total_usd_bought_by_did + ticket_size` of the per-DID
ceiling check `usd_ticket_below_maximum_per_did(total_usd_bought_by_did +
ticket_size)` in `do_perform_contribution`, computed along the execution path of
`do_contribute`: `some` of the sum when that check is reached (that is, when
every preceding gate and check passes), `none` otherwise.  In the Rust source
this sum is an unguarded u128 `+` (with no `checked_add` and no `BadMath`
error), while the ticket-size multiplication just above it is
`checked_mul_int`. -/
def ceiling_check_argument (p : DoContributeParams) (st : Storage) : Option Nat :=
  match st.projectsDetails p.project_id with
  | none => none
  | some project_details =>
    match project_details.status with
    | .CommunityRound remainder_start =>
      match project_details.round_duration.endBlock with
      | none => none
      | some round_end =>
        if (st.didWithWinningBids p.project_id p.did = false ∨ remainder_start ≤ st.now) ∧
            st.now < round_end ∧
            ¬ min p.ct_amount project_details.remaining_contribution_tokens = 0 then
          match st.projectsMetadata p.project_id with
          | none => none
          | some project_metadata =>
            match project_details.weighted_average_price with
            | none => none
            | some ct_usd_price =>
              match project_metadata.policy_ipfs_cid with
              | none => none
              | some project_policy =>
                match checked_mul_int ct_usd_price
                    (min p.ct_amount project_details.remaining_contribution_tokens) with
                | none => none
                | some ticket_size =>
                  if project_policy = p.whitelisted_policy ∧
                      (p.multiplier ≤ max_multiplier_for p.investor_type ∧ 0 < p.multiplier) ∧
                      p.funding_asset ∈ project_metadata.participation_currencies ∧
                      ¬ p.did = project_details.issuer_did ∧
                      (st.contributions.filter fun c =>
                        c.project_id == p.project_id &&
                          c.contributor == p.contributor).length < maxContributionsPerUser ∧
                      ((contributor_ticket_size_for project_metadata
                          p.investor_type).usd_ticket_above_minimum_per_participation
                            ticket_size = true ∨
                        project_details.remaining_contribution_tokens -
                          min p.ct_amount project_details.remaining_contribution_tokens = 0) then
                    some (st.contributionBoughtUSD p.project_id p.did + ticket_size)
                  else none
        else none
    | _ => none

/-- Same storage as `stW` but with the DID's cumulative bought USD already at
`u128::MAX`, so the ceiling-check addition overflows u128. -/
def stOverflow : Storage := { stW with contributionBoughtUSD := fun _ _ => u128Max }

/-- C10: the per-DID ceiling check adds `total_usd_bought_by_did + ticket_size`
with an unguarded u128 addition: there are storage states reaching that check
whose sum exceeds `u128::MAX` (so the addition is total only under a
no-overflow precondition), whereas the ticket-size multiplication above it is
checked — `checked_mul_int` returns `none` exactly when its result exceeds
`u128::MAX`, which `do_perform_contribution` turns into `BadMath`. -/
theorem ceiling_addition_unguarded :
    (∃ (p : DoContributeParams) (st : Storage) (v : Nat),
      ceiling_check_argument p st = some v ∧ u128Max < v) ∧
    (∀ price n : Nat, checked_mul_int price n = none ↔
      u128Max < price * n / FIXED_ONE) := by
  constructor
  · refine ⟨pW, stOverflow, u128Max + 50000, rfl, by decide⟩
  · intro price n
    show (if price * n / FIXED_ONE ≤ u128Max then some (price * n / FIXED_ONE) else none) =
        none ↔ u128Max < price * n / FIXED_ONE
    by_cases hle : price * n / FIXED_ONE ≤ u128Max
    · rw [if_pos hle]
      constructor
      · intro hc
        exact Option.noConfusion hc
      · intro hc
        omega
    · rw [if_neg hle]
      constructor
      · intro _
        omega
      · intro _
        rfl
